import Mathlib

/-!
Verification of the navigation-tree configuration and its validation
contract.  The repository contains a single declarative configuration file,
`src/docs/sidebars.js`, exporting the `someSidebar` navigation tree.  The
validator, the encoding and the decoding described by the specification are
not part of the repository sources; they are modelled here from the
specification text and the `someSidebar` data is embedded literally from
`src/docs/sidebars.js`.
-/

/-- A raw, untyped configuration value: strings, booleans, numbers, null,
ordered sequences and key-value mappings, as might come from a
configuration file. -/
inductive Raw where
  | str (s : String)
  | boolVal (b : Bool)
  | num (n : Int)
  | null
  | arr (elems : List Raw)
  | obj (fields : List (String × Raw))

/-- A validated navigation node: either a leaf document reference or a
labelled category with an ordered list of child nodes. -/
inductive NavigationNode where
  | Leaf (documentId : String)
  | Category (label : String) (items : List NavigationNode)

/-- The five validation error variants of the error taxonomy. -/
inductive ValidationError where
  | MalformedNode (path : List Nat) (reason : String)
  | EmptyLabel (path : List Nat)
  | InvalidItems (path : List Nat)
  | EmptyDocumentId (path : List Nat)
  | DuplicateDocumentId (documentId : String) (paths : List (List Nat))

/-- The result of validation: either a validated tree or a nonempty batch of
errors (structural failures carry a single error; duplicate-identifier
failures are reported exhaustively, one error per repeated value). -/
inductive VResult where
  | ok (tree : List NavigationNode)
  | err (errors : List ValidationError)

/-- First value bound to key `k` in a mapping, if any. -/
def getField (k : String) : List (String × Raw) → Option Raw
  | [] => none
  | (k', v) :: rest => if k' = k then some v else getField k rest

def hasField (k : String) (fields : List (String × Raw)) : Bool :=
  (getField k fields).isSome

/-- Modelled from the spec: a mapping is recognised as a category when it
carries a `type` discriminator equal to "category", or structurally
contains both `label` and `items`. -/
def isCategoryShape (fields : List (String × Raw)) : Bool :=
  (match getField "type" fields with
   | some (.str t) => t = "category"
   | _ => false)
  || (hasField "label" fields && hasField "items" fields)

mutual

/-- Modelled from the spec: the recursive structural classification of one
node (the validator itself is absent from the repository sources).  A plain
nonempty string is a Leaf; an empty string fails with `EmptyDocumentId`; a
category-shaped mapping must carry a nonempty string label (else
`EmptyLabel`, also chosen for a missing or non-string label) and a
sequence-valued `items` field whose entries are validated recursively in
order; any other shape fails with `MalformedNode`. -/
def validateNode (path : List Nat) : Raw → Except ValidationError NavigationNode
  | .str s =>
      if s.isEmpty then .error (.EmptyDocumentId path)
      else .ok (.Leaf s)
  | .obj fields =>
      if isCategoryShape fields then
        match getField "label" fields with
        | some (.str l) =>
            if l.isEmpty then .error (.EmptyLabel path)
            else validateItemsField path l fields
        | _ => .error (.EmptyLabel path)
      else .error (.MalformedNode path "node is neither a string nor a category mapping")
  | _ => .error (.MalformedNode path "node is neither a string nor a category mapping")

/-- Modelled from the spec: locate the first `items` field of a
category-shaped mapping; it must be an ordered sequence (possibly empty),
else `InvalidItems`; its entries are validated recursively in order. -/
def validateItemsField (path : List Nat) (l : String) :
    List (String × Raw) → Except ValidationError NavigationNode
  | [] => .error (.InvalidItems path)
  | (k, v) :: rest =>
      if k = "items" then
        match v with
        | .arr elems =>
            match validateItems path 0 elems with
            | .ok ns => .ok (.Category l ns)
            | .error e => .error e
        | _ => .error (.InvalidItems path)
      else validateItemsField path l rest

/-- Modelled from the spec: validate the entries of a sequence in order
(depth-first, left-to-right), fail-fast on the first structural error.
Entry `j` of the sequence rooted at `path` lives at `path ++ [i + j]`. -/
def validateItems (path : List Nat) (i : Nat) :
    List Raw → Except ValidationError (List NavigationNode)
  | [] => .ok []
  | v :: vs =>
      match validateNode (path ++ [i]) v with
      | .error e => .error e
      | .ok n =>
          match validateItems path (i + 1) vs with
          | .error e => .error e
          | .ok ns => .ok (n :: ns)

end

mutual

/-- The `documentId` values below one node in traversal order, each with
the path at which it occurs; the node itself sits at `path ++ [i]`. -/
def collectIdsNode (path : List Nat) (i : Nat) :
    NavigationNode → List (String × List Nat)
  | .Leaf d => [(d, path ++ [i])]
  | .Category _ items => collectIds (path ++ [i]) 0 items

/-- All `documentId` values of a validated tree in traversal order, each
with the path at which it occurs. -/
def collectIds (path : List Nat) (i : Nat) :
    List NavigationNode → List (String × List Nat)
  | [] => []
  | n :: rest => collectIdsNode path i n ++ collectIds path (i + 1) rest

end

/-- Remove repeated values from a list, keeping first occurrences. -/
def dedupFirst (seen : List String) : List String → List String
  | [] => []
  | d :: rest =>
      if d ∈ seen then dedupFirst seen rest
      else d :: dedupFirst (d :: seen) rest

/-- Every path at which the value `d` occurs, in traversal order. -/
def pathsOf (d : String) (pairs : List (String × List Nat)) : List (List Nat) :=
  (pairs.filter (fun p => p.1 == d)).map Prod.snd

/-- Modelled from the spec: the whole-tree duplicate check performed once
after the recursive walk.  For each repeated `documentId` value (in order of
first occurrence) produce a single `DuplicateDocumentId` error listing every
path where the value occurs. -/
def dupErrors (pairs : List (String × List Nat)) : List ValidationError :=
  ((dedupFirst [] (pairs.map Prod.fst)).filter
      (fun d => decide (2 ≤ (pairs.map Prod.fst).count d))).map
    (fun d => .DuplicateDocumentId d (pathsOf d pairs))

/-- Modelled from the spec: `validate(raw)`.  The root must be an ordered
sequence of nodes; the structural walk is fail-fast (first error in
depth-first, left-to-right order), and when it succeeds the whole-tree
duplicate check runs on the collected identifiers. -/
def validate : Raw → VResult
  | .arr elems =>
      match validateItems [] 0 elems with
      | .error e => .err [e]
      | .ok tree =>
          match dupErrors (collectIds [] 0 tree) with
          | [] => .ok tree
          | e :: es => .err (e :: es)
  | _ => .err [.MalformedNode [] "root is not a sequence"]

mutual

/-- Formalisation of the traversal order of the claim: every structural
defect below one node, in depth-first, left-to-right order (the label of a
category-shaped mapping is inspected before its items).  The head of the
list is the first structural defect of the subtree. -/
def allErrorsNode (path : List Nat) : Raw → List ValidationError
  | .str s => if s.isEmpty then [.EmptyDocumentId path] else []
  | .obj fields =>
      if isCategoryShape fields then
        (match getField "label" fields with
         | some (.str l) =>
             if l.isEmpty then .EmptyLabel path :: allErrorsItemsField path fields
             else allErrorsItemsField path fields
         | _ => .EmptyLabel path :: allErrorsItemsField path fields)
      else [.MalformedNode path "node is neither a string nor a category mapping"]
  | _ => [.MalformedNode path "node is neither a string nor a category mapping"]

/-- Structural defects contributed by the `items` field of a
category-shaped mapping: the defects of the entries in order when the
first `items` field is a sequence, and `InvalidItems` otherwise. -/
def allErrorsItemsField (path : List Nat) :
    List (String × Raw) → List ValidationError
  | [] => [.InvalidItems path]
  | (k, v) :: rest =>
      if k = "items" then
        (match v with
         | .arr elems => allErrorsList path 0 elems
         | _ => [.InvalidItems path])
      else allErrorsItemsField path rest

/-- All structural defects of a node sequence in depth-first,
left-to-right traversal order. -/
def allErrorsList (path : List Nat) (i : Nat) : List Raw → List ValidationError
  | [] => []
  | v :: vs => allErrorsNode (path ++ [i]) v ++ allErrorsList path (i + 1) vs

end

/-- A result agrees with a defect list when the empty list means success
and a nonempty list means failure with exactly the head (first) error. -/
def agrees {α : Type} (errs : List ValidationError)
    (res : Except ValidationError α) : Prop :=
  match errs with
  | [] => ∃ a, res = .ok a
  | e :: _ => res = .error e

mutual

/-- Modelled from the spec: the structured-data encoding of a validated
node (a JSON-like value: leaves encode as plain strings, categories as
mappings with `type`, `label` and `items`). -/
def encodeNode : NavigationNode → Raw
  | .Leaf d => .str d
  | .Category l items =>
      .obj [("type", .str "category"), ("label", .str l),
            ("items", .arr (encodeList items))]

def encodeList : List NavigationNode → List Raw
  | [] => []
  | n :: ns => encodeNode n :: encodeList ns

end

/-- Modelled from the spec: encode a whole tree. -/
def encode (t : List NavigationNode) : Raw := .arr (encodeList t)

/-- Modelled from the spec: decode a structured-data value back into a
navigation tree (the structural parse, without the whole-tree duplicate
check). -/
def decode : Raw → Option (List NavigationNode)
  | .arr elems =>
      match validateItems [] 0 elems with
      | .ok t => some t
      | .error _ => none
  | _ => none

mutual

/-- A node is valid when every label and every documentId in it is
nonempty. -/
def nodeValid : NavigationNode → Bool
  | .Leaf d => !d.isEmpty
  | .Category l items => !l.isEmpty && listValid items

def listValid : List NavigationNode → Bool
  | [] => true
  | n :: ns => nodeValid n && listValid ns

end

/-- A valid tree: structurally valid and with pairwise distinct
documentId values. -/
def TreeValid (t : List NavigationNode) : Prop :=
  listValid t = true ∧ ((collectIds [] 0 t).map Prod.fst).Nodup

mutual

/-- The returned node mirrors the raw input node: a plain string becomes a
Leaf with that documentId, a category mapping becomes a Category with the
same label and its items in the same order. -/
inductive NodeMirrors : Raw → NavigationNode → Prop where
  | leaf (s : String) : NodeMirrors (.str s) (.Leaf s)
  | category {fields : List (String × Raw)} {l : String} {elems : List Raw}
      {items : List NavigationNode} :
      getField "label" fields = some (.str l) →
      getField "items" fields = some (.arr elems) →
      ListMirrors elems items →
      NodeMirrors (.obj fields) (.Category l items)

/-- Pointwise mirroring of node sequences, preserving order and length. -/
inductive ListMirrors : List Raw → List NavigationNode → Prop where
  | nil : ListMirrors [] []
  | cons {v : Raw} {n : NavigationNode} {vs : List Raw}
      {ns : List NavigationNode} :
      NodeMirrors v n → ListMirrors vs ns → ListMirrors (v :: vs) (n :: ns)

end

/-- Does an error report a duplicate of the value `d`? -/
def isDupErrorFor (d : String) : ValidationError → Bool
  | .DuplicateDocumentId d' _ => d' == d
  | _ => false

/-- Shorthand for a category mapping, with the field order used throughout
`src/docs/sidebars.js`: `type`, `label`, `items`. -/
def cat (label : String) (items : List Raw) : Raw :=
  .obj [("type", .str "category"), ("label", .str label),
        ("items", .arr items)]

mutual

/-- Every node is either a nonempty plain string or a mapping carrying the
discriminator `type = "category"`, a nonempty string label, and a
sequence-valued `items` field of well-shaped nodes. -/
def wellShapedNode : Raw → Bool
  | .str s => !s.isEmpty
  | .obj fields =>
      (match getField "type" fields with
       | some (.str t) => t == "category"
       | _ => false)
      && (match getField "label" fields with
          | some (.str l) => !l.isEmpty
          | _ => false)
      && wellShapedItems fields
  | _ => false

def wellShapedItems : List (String × Raw) → Bool
  | [] => false
  | (k, v) :: rest =>
      if k == "items" then
        match v with
        | .arr elems => wellShapedList elems
        | _ => false
      else wellShapedItems rest

def wellShapedList : List Raw → Bool
  | [] => true
  | v :: vs => wellShapedNode v && wellShapedList vs

end

mutual

/-- Number of category levels above the deepest leaf position below this
node. -/
def categoryDepthNode : NavigationNode → Nat
  | .Leaf _ => 0
  | .Category _ items => 1 + categoryDepthList items

def categoryDepthList : List NavigationNode → Nat
  | [] => 0
  | n :: ns => max (categoryDepthNode n) (categoryDepthList ns)

end

mutual

/-- No category anywhere below carries an empty items list. -/
def noEmptyCategoryNode : NavigationNode → Bool
  | .Leaf _ => true
  | .Category _ items => !items.isEmpty && noEmptyCategoryList items

def noEmptyCategoryList : List NavigationNode → Bool
  | [] => true
  | n :: ns => noEmptyCategoryNode n && noEmptyCategoryList ns

end

/-- The `someSidebar` navigation tree, embedded literally from
`src/docs/sidebars.js` (the inline source comment carries no data). -/
def someSidebar : List Raw := [
  cat "Getting Started" [
    .str "index",
    .str "prototype-an-assistant",
    .str "installation",
    .str "cheatsheet",
    .str "migrate-from"],
  cat "NLU" [
    .str "training-data-format",
    cat "Components" [
      .str "components/language-models",
      .str "components/tokenizers",
      .str "components/featurizers",
      .str "components/intent-classifiers",
      .str "components/entity-extractors",
      .str "components/selectors",
      .str "components/custom-nlu-components"]],
  cat "Dialogue Management" [
    .str "stories",
    .str "domains",
    cat "Policies" [
      .str "policies"],
    cat "Actions" [
      .str "retrieval-actions",
      .str "forms",
      .str "reminders-and-external-events"],
    cat "Channel Connectors" [
      .str "connectors/your-own-website",
      .str "connectors/facebook-messenger",
      .str "connectors/slack",
      .str "connectors/telegram",
      .str "connectors/twilio",
      .str "connectors/hangouts",
      .str "connectors/microsoft-bot-framework",
      .str "connectors/cisco-webex-teams",
      .str "connectors/rocketchat",
      .str "connectors/mattermost"],
    cat "Architecture" [
      .str "tracker-stores",
      .str "event-brokers",
      .str "lock-stores",
      .str "nlg",
      .str "cloud-storage"]],
  cat "Rasa SDK" [
    cat "Custom Actions" [
      .str "actions",
      .str "knowledge-bases"],
    .str "tracker",
    .str "events",
    cat "Reference" [
      .str "action-server"]],
  cat "Reference" [
    .str "architecture",
    .str "command-line-interface",
    .str "http-api",
    cat "Versioning" [
      .str "changelog",
      .str "migration-guide"]],
  cat "Old Content" [
    .str "building-assistants",
    .str "messaging-and-voice-channels",
    .str "testing-your-assistant",
    .str "setting-up-ci-cd",
    .str "validate-files",
    .str "configuring-http-api",
    .str "how-to-deploy",
    .str "about-nlu",
    .str "using-nlu-only",
    .str "language-support",
    .str "choosing-a-pipeline",
    .str "entity-extraction",
    .str "about-core",
    .str "responses",
    .str "slots",
    .str "interactive-learning",
    .str "fallback-actions",
    .str "jupyter-notebooks",
    .str "agent",
    .str "rasa-sdk",
    .str "training-data-importers",
    .str "core-featurization",
    .str "tensorflow_usage",
    .str "glossary"]]

/-- The navigation tree that validating `someSidebar` is expected to
produce: the structural image of the configuration. -/
def someSidebarTree : List NavigationNode := [
  .Category "Getting Started" [
    .Leaf "index",
    .Leaf "prototype-an-assistant",
    .Leaf "installation",
    .Leaf "cheatsheet",
    .Leaf "migrate-from"],
  .Category "NLU" [
    .Leaf "training-data-format",
    .Category "Components" [
      .Leaf "components/language-models",
      .Leaf "components/tokenizers",
      .Leaf "components/featurizers",
      .Leaf "components/intent-classifiers",
      .Leaf "components/entity-extractors",
      .Leaf "components/selectors",
      .Leaf "components/custom-nlu-components"]],
  .Category "Dialogue Management" [
    .Leaf "stories",
    .Leaf "domains",
    .Category "Policies" [
      .Leaf "policies"],
    .Category "Actions" [
      .Leaf "retrieval-actions",
      .Leaf "forms",
      .Leaf "reminders-and-external-events"],
    .Category "Channel Connectors" [
      .Leaf "connectors/your-own-website",
      .Leaf "connectors/facebook-messenger",
      .Leaf "connectors/slack",
      .Leaf "connectors/telegram",
      .Leaf "connectors/twilio",
      .Leaf "connectors/hangouts",
      .Leaf "connectors/microsoft-bot-framework",
      .Leaf "connectors/cisco-webex-teams",
      .Leaf "connectors/rocketchat",
      .Leaf "connectors/mattermost"],
    .Category "Architecture" [
      .Leaf "tracker-stores",
      .Leaf "event-brokers",
      .Leaf "lock-stores",
      .Leaf "nlg",
      .Leaf "cloud-storage"]],
  .Category "Rasa SDK" [
    .Category "Custom Actions" [
      .Leaf "actions",
      .Leaf "knowledge-bases"],
    .Leaf "tracker",
    .Leaf "events",
    .Category "Reference" [
      .Leaf "action-server"]],
  .Category "Reference" [
    .Leaf "architecture",
    .Leaf "command-line-interface",
    .Leaf "http-api",
    .Category "Versioning" [
      .Leaf "changelog",
      .Leaf "migration-guide"]],
  .Category "Old Content" [
    .Leaf "building-assistants",
    .Leaf "messaging-and-voice-channels",
    .Leaf "testing-your-assistant",
    .Leaf "setting-up-ci-cd",
    .Leaf "validate-files",
    .Leaf "configuring-http-api",
    .Leaf "how-to-deploy",
    .Leaf "about-nlu",
    .Leaf "using-nlu-only",
    .Leaf "language-support",
    .Leaf "choosing-a-pipeline",
    .Leaf "entity-extraction",
    .Leaf "about-core",
    .Leaf "responses",
    .Leaf "slots",
    .Leaf "interactive-learning",
    .Leaf "fallback-actions",
    .Leaf "jupyter-notebooks",
    .Leaf "agent",
    .Leaf "rasa-sdk",
    .Leaf "training-data-importers",
    .Leaf "core-featurization",
    .Leaf "tensorflow_usage",
    .Leaf "glossary"]]

/-! ## Helper lemmas -/

theorem mem_dedupFirst (a : String) (l : List String) : ∀ (seen : List String),
    a ∈ dedupFirst seen l ↔ (a ∈ l ∧ a ∉ seen) := by
  induction l with
  | nil => intro seen; simp [dedupFirst]
  | cons d rest ih =>
      intro seen
      by_cases h : d ∈ seen
      · rw [dedupFirst, if_pos h, ih seen]
        simp only [List.mem_cons]
        constructor
        · rintro ⟨hr, hs⟩; exact ⟨Or.inr hr, hs⟩
        · rintro ⟨hd | hr, hs⟩
          · subst hd; exact absurd h hs
          · exact ⟨hr, hs⟩
      · rw [dedupFirst, if_neg h]
        simp only [List.mem_cons, ih (d :: seen)]
        constructor
        · rintro (hd | ⟨hr, hs⟩)
          · subst hd; exact ⟨Or.inl rfl, h⟩
          · exact ⟨Or.inr hr, fun hc => hs (Or.inr hc)⟩
        · rintro ⟨hd | hr, hs⟩
          · subst hd; exact Or.inl rfl
          · by_cases had : a = d
            · exact Or.inl had
            · refine Or.inr ⟨hr, fun hc => ?_⟩
              rcases hc with h1 | h1
              · exact had h1
              · exact hs h1

theorem nodup_dedupFirst (l : List String) : ∀ seen, (dedupFirst seen l).Nodup := by
  induction l with
  | nil => intro seen; simp [dedupFirst]
  | cons d rest ih =>
      intro seen
      by_cases h : d ∈ seen
      · rw [dedupFirst, if_pos h]; exact ih seen
      · rw [dedupFirst, if_neg h]
        refine List.nodup_cons.mpr ⟨?_, ih (d :: seen)⟩
        intro hc
        exact ((mem_dedupFirst d rest (d :: seen)).mp hc).2 (List.mem_cons_self d seen)

theorem nodup_filter_single {l : List String} {q : String → Bool} {d : String}
    (hl : l.Nodup) (hd : d ∈ l) (hq : q d = true)
    (honly : ∀ x, q x = true → x = d) :
    l.filter q = [d] := by
  induction l with
  | nil => cases hd
  | cons a rest ih =>
      rcases List.nodup_cons.mp hl with ⟨ha, hrest⟩
      rcases List.mem_cons.mp hd with h | h
      · subst h
        have hnil : rest.filter q = [] := by
          rw [List.filter_eq_nil_iff]
          intro x hx hqx
          exact ha ((honly x hqx) ▸ hx)
        rw [List.filter_cons_of_pos hq, hnil]
      · have hqa : q a = false := by
          cases hc : q a with
          | false => rfl
          | true => exact absurd ((honly a hc) ▸ h) ha
        rw [List.filter_cons_of_neg (by simp [hqa])]
        exact ih hrest h

theorem dupErrors_filter_eq {pairs : List (String × List Nat)} {d : String}
    (hd : 2 ≤ (pairs.map Prod.fst).count d) :
    (dupErrors pairs).filter (isDupErrorFor d) =
      [.DuplicateDocumentId d (pathsOf d pairs)] := by
  unfold dupErrors
  rw [List.filter_map, List.filter_filter]
  have hmem : d ∈ dedupFirst [] (pairs.map Prod.fst) := by
    rw [mem_dedupFirst]
    exact ⟨List.count_pos_iff.mp (by omega), by simp⟩
  have hsingle :
      (dedupFirst [] (pairs.map Prod.fst)).filter
        (fun a => ((isDupErrorFor d) ∘
          (fun d' => ValidationError.DuplicateDocumentId d' (pathsOf d' pairs))) a &&
          decide (2 ≤ (pairs.map Prod.fst).count a)) = [d] := by
    refine nodup_filter_single (nodup_dedupFirst _ []) hmem ?_ ?_
    · simp only [Function.comp, isDupErrorFor]
      simp [hd]
    · intro x hx
      simp only [Function.comp, isDupErrorFor, Bool.and_eq_true, beq_iff_eq] at hx
      exact hx.1
  rw [hsingle]
  rfl

theorem dupErrors_ne_nil {pairs : List (String × List Nat)} {d : String}
    (hd : 2 ≤ (pairs.map Prod.fst).count d) :
    dupErrors pairs ≠ [] := by
  intro h
  have h2 := dupErrors_filter_eq hd
  rw [h] at h2
  simp at h2

theorem dupErrors_eq_nil_of_nodup {pairs : List (String × List Nat)}
    (h : (pairs.map Prod.fst).Nodup) :
    dupErrors pairs = [] := by
  unfold dupErrors
  have hnil : (dedupFirst [] (pairs.map Prod.fst)).filter
      (fun d => decide (2 ≤ (pairs.map Prod.fst).count d)) = [] := by
    rw [List.filter_eq_nil_iff]
    intro a _
    have := List.nodup_iff_count_le_one.mp h a
    simp only [decide_eq_true_eq]
    omega
  rw [hnil]
  rfl


/-! Reduction lemmas restating the defining equations of the mutual
validator functions in a form usable for rewriting with free variables. -/

theorem validateNode_str (p : List Nat) (s : String) :
    validateNode p (.str s) =
      if s.isEmpty then .error (.EmptyDocumentId p)
      else .ok (.Leaf s) := by
  rw [validateNode.eq_def]

theorem validateNode_obj (p : List Nat) (fields : List (String × Raw)) :
    validateNode p (.obj fields) =
      if isCategoryShape fields then
        (match getField "label" fields with
         | some (.str l) =>
             if l.isEmpty then .error (.EmptyLabel p)
             else validateItemsField p l fields
         | _ => .error (.EmptyLabel p))
      else .error
        (.MalformedNode p "node is neither a string nor a category mapping") := by
  rw [validateNode.eq_def]

theorem validateItemsField_cons (p : List Nat) (l k : String) (v : Raw)
    (rest : List (String × Raw)) :
    validateItemsField p l ((k, v) :: rest) =
      if k = "items" then
        (match v with
         | Raw.arr elems =>
             (match validateItems p 0 elems with
              | Except.ok ns => Except.ok (NavigationNode.Category l ns)
              | Except.error e => Except.error e)
         | _ => Except.error (ValidationError.InvalidItems p))
      else validateItemsField p l rest := by
  rw [validateItemsField.eq_def]

theorem validateItems_nil (p : List Nat) (i : Nat) :
    validateItems p i [] = .ok [] := by
  rw [validateItems.eq_def]

theorem validateItems_cons (p : List Nat) (i : Nat) (v : Raw) (vs : List Raw) :
    validateItems p i (v :: vs) =
      (match validateNode (p ++ [i]) v with
       | Except.error e => Except.error e
       | Except.ok n =>
           (match validateItems p (i + 1) vs with
            | Except.error e => Except.error e
            | Except.ok ns => Except.ok (n :: ns))) := by
  rw [validateItems.eq_def]

theorem allErrorsNode_str (p : List Nat) (s : String) :
    allErrorsNode p (.str s) =
      if s.isEmpty then [.EmptyDocumentId p] else [] := by
  rw [allErrorsNode.eq_def]

theorem allErrorsNode_obj (p : List Nat) (fields : List (String × Raw)) :
    allErrorsNode p (.obj fields) =
      if isCategoryShape fields then
        (match getField "label" fields with
         | some (.str l) =>
             if l.isEmpty then
               ValidationError.EmptyLabel p :: allErrorsItemsField p fields
             else allErrorsItemsField p fields
         | _ => ValidationError.EmptyLabel p :: allErrorsItemsField p fields)
      else [.MalformedNode p "node is neither a string nor a category mapping"] := by
  rw [allErrorsNode.eq_def]

theorem allErrorsItemsField_cons (p : List Nat) (k : String) (v : Raw)
    (rest : List (String × Raw)) :
    allErrorsItemsField p ((k, v) :: rest) =
      if k = "items" then
        (match v with
         | Raw.arr elems => allErrorsList p 0 elems
         | _ => [ValidationError.InvalidItems p])
      else allErrorsItemsField p rest := by
  rw [allErrorsItemsField.eq_def]

theorem allErrorsList_cons (p : List Nat) (i : Nat) (v : Raw) (vs : List Raw) :
    allErrorsList p i (v :: vs) =
      allErrorsNode (p ++ [i]) v ++ allErrorsList p (i + 1) vs := by
  rw [allErrorsList.eq_def]

mutual

theorem validateNode_mirrors : ∀ (p : List Nat) (v : Raw) (n : NavigationNode),
    validateNode p v = .ok n → NodeMirrors v n
  | p, .str s, n, h => by
      rw [validateNode_str] at h
      by_cases hs : s.isEmpty = true
      · rw [if_pos hs] at h; cases h
      · rw [if_neg hs] at h
        cases h
        exact NodeMirrors.leaf s
  | p, .obj fields, n, h => by
      rw [validateNode_obj] at h
      by_cases hcat : isCategoryShape fields = true
      · rw [if_pos hcat] at h
        split at h
        · rename_i l hl
          by_cases hle : l.isEmpty = true
          · rw [if_pos hle] at h; cases h
          · rw [if_neg hle] at h
            obtain ⟨elems, items, hitems, hn, hm⟩ :=
              validateItemsField_mirrors p l fields n h
            subst hn
            exact NodeMirrors.category hl hitems hm
        · cases h
      · rw [if_neg hcat] at h; cases h
  | p, .boolVal b, n, h => Except.noConfusion h
  | p, .num m, n, h => Except.noConfusion h
  | p, .null, n, h => Except.noConfusion h
  | p, .arr es, n, h => Except.noConfusion h

theorem validateItemsField_mirrors : ∀ (p : List Nat) (l : String)
    (fields : List (String × Raw)) (n : NavigationNode),
    validateItemsField p l fields = .ok n →
    ∃ elems items, getField "items" fields = some (.arr elems) ∧
      n = .Category l items ∧ ListMirrors elems items
  | p, l, [], n, h => Except.noConfusion h
  | p, l, (k, v) :: rest, n, h => by
      rw [validateItemsField_cons] at h
      by_cases hk : k = "items"
      · rw [if_pos hk] at h
        subst hk
        split at h
        · rename_i elems
          split at h
          · rename_i ns hvi
            cases h
            exact ⟨elems, ns, rfl, rfl, validateItems_mirrors p 0 elems ns hvi⟩
          · cases h
        · cases h
      · rw [if_neg hk] at h
        obtain ⟨elems, items, hitems, hn, hm⟩ :=
          validateItemsField_mirrors p l rest n h
        refine ⟨elems, items, ?_, hn, hm⟩
        rw [getField, if_neg hk]
        exact hitems

theorem validateItems_mirrors : ∀ (p : List Nat) (i : Nat) (vs : List Raw)
    (ns : List NavigationNode),
    validateItems p i vs = .ok ns → ListMirrors vs ns
  | p, i, [], ns, h => by
      rw [validateItems_nil] at h
      cases h
      exact ListMirrors.nil
  | p, i, v :: vs, ns, h => by
      rw [validateItems_cons] at h
      split at h
      · cases h
      · rename_i n hv
        split at h
        · cases h
        · rename_i ms hrest
          cases h
          exact ListMirrors.cons (validateNode_mirrors (p ++ [i]) v n hv)
            (validateItems_mirrors p (i + 1) vs ms hrest)

end

mutual

theorem validateNode_encodeNode : ∀ (p : List Nat) (n : NavigationNode),
    nodeValid n = true → validateNode p (encodeNode n) = .ok n
  | p, .Leaf d, h => by
      rw [nodeValid] at h
      have hfalse : d.isEmpty = false := by simpa using h
      rw [encodeNode, validateNode_str, if_neg (by simp [hfalse])]
  | p, .Category l items, h => by
      rw [nodeValid, Bool.and_eq_true] at h
      have hfalse : l.isEmpty = false := by simpa using h.1
      rw [encodeNode, validateNode_obj]
      rw [show isCategoryShape
            [("type", Raw.str "category"), ("label", Raw.str l),
             ("items", Raw.arr (encodeList items))] = true from rfl]
      rw [if_pos rfl]
      rw [show getField "label"
            [("type", Raw.str "category"), ("label", Raw.str l),
             ("items", Raw.arr (encodeList items))] = some (Raw.str l) from rfl]
      show (if l.isEmpty = true then Except.error (ValidationError.EmptyLabel p)
            else validateItemsField p l
              [("type", Raw.str "category"), ("label", Raw.str l),
               ("items", Raw.arr (encodeList items))]) =
          Except.ok (NavigationNode.Category l items)
      rw [if_neg (by simp [hfalse])]
      rw [validateItemsField_cons, if_neg (by decide),
          validateItemsField_cons, if_neg (by decide),
          validateItemsField_cons, if_pos rfl]
      show (match validateItems p 0 (encodeList items) with
            | Except.ok ns => Except.ok (NavigationNode.Category l ns)
            | Except.error e => Except.error e) =
          Except.ok (NavigationNode.Category l items)
      rw [validateItems_encodeList p 0 items h.2]

theorem validateItems_encodeList : ∀ (p : List Nat) (i : Nat)
    (ns : List NavigationNode), listValid ns = true →
    validateItems p i (encodeList ns) = .ok ns
  | p, i, [], _ => by rw [encodeList, validateItems_nil]
  | p, i, n :: ns, h => by
      rw [listValid, Bool.and_eq_true] at h
      rw [encodeList, validateItems_cons]
      rw [validateNode_encodeNode (p ++ [i]) n h.1]
      show (match validateItems p (i + 1) (encodeList ns) with
            | Except.error e => Except.error e
            | Except.ok ms => Except.ok (n :: ms)) = Except.ok (n :: ns)
      rw [validateItems_encodeList p (i + 1) ns h.2]

end

mutual

theorem validateNode_agrees : ∀ (p : List Nat) (v : Raw),
    agrees (allErrorsNode p v) (validateNode p v)
  | p, .str s => by
      rw [validateNode_str, allErrorsNode_str]
      by_cases hs : s.isEmpty = true
      · rw [if_pos hs, if_pos hs]
        exact rfl
      · rw [if_neg hs, if_neg hs]
        exact ⟨.Leaf s, rfl⟩
  | p, .obj fields => by
      rw [validateNode_obj, allErrorsNode_obj]
      by_cases hcat : isCategoryShape fields = true
      · rw [if_pos hcat, if_pos hcat]
        cases hl : getField "label" fields with
        | none => exact rfl
        | some val =>
            cases val with
            | str l =>
                show agrees
                  (if l.isEmpty = true then
                     ValidationError.EmptyLabel p :: allErrorsItemsField p fields
                   else allErrorsItemsField p fields)
                  (if l.isEmpty = true then
                     Except.error (ValidationError.EmptyLabel p)
                   else validateItemsField p l fields)
                by_cases hle : l.isEmpty = true
                · rw [if_pos hle, if_pos hle]
                  exact rfl
                · rw [if_neg hle, if_neg hle]
                  exact validateItemsField_agrees p l fields
            | boolVal b => exact rfl
            | num m => exact rfl
            | null => exact rfl
            | arr es => exact rfl
            | obj fs => exact rfl
      · rw [if_neg hcat, if_neg hcat]
        exact rfl
  | p, .boolVal b => rfl
  | p, .num m => rfl
  | p, .null => rfl
  | p, .arr es => rfl

theorem validateItemsField_agrees : ∀ (p : List Nat) (l : String)
    (fields : List (String × Raw)),
    agrees (allErrorsItemsField p fields) (validateItemsField p l fields)
  | p, l, [] => rfl
  | p, l, (k, v) :: rest => by
      rw [validateItemsField_cons, allErrorsItemsField_cons]
      by_cases hk : k = "items"
      · rw [if_pos hk, if_pos hk]
        cases v with
        | arr elems =>
            show agrees (allErrorsList p 0 elems)
              (match validateItems p 0 elems with
               | Except.ok ns => Except.ok (NavigationNode.Category l ns)
               | Except.error e => Except.error e)
            have hagree := validateItems_agrees p 0 elems
            cases herr : allErrorsList p 0 elems with
            | nil =>
                rw [herr] at hagree
                have hagree2 : ∃ ns, validateItems p 0 elems = .ok ns := hagree
                obtain ⟨ns, hns⟩ := hagree2
                rw [hns]
                exact ⟨.Category l ns, rfl⟩
            | cons e es =>
                rw [herr] at hagree
                have hagree3 : validateItems p 0 elems = .error e := hagree
                rw [hagree3]
                exact rfl
        | str s => exact rfl
        | boolVal b => exact rfl
        | num m => exact rfl
        | null => exact rfl
        | obj fs => exact rfl
      · rw [if_neg hk, if_neg hk]
        exact validateItemsField_agrees p l rest

theorem validateItems_agrees : ∀ (p : List Nat) (i : Nat) (vs : List Raw),
    agrees (allErrorsList p i vs) (validateItems p i vs)
  | p, i, [] => ⟨[], rfl⟩
  | p, i, v :: vs => by
      rw [validateItems_cons, allErrorsList_cons]
      have hnode := validateNode_agrees (p ++ [i]) v
      cases hn : allErrorsNode (p ++ [i]) v with
      | nil =>
          rw [hn] at hnode
          have hnode2 : ∃ n, validateNode (p ++ [i]) v = .ok n := hnode
          obtain ⟨n, hok⟩ := hnode2
          rw [hok]
          show agrees (allErrorsList p (i + 1) vs)
            (match validateItems p (i + 1) vs with
             | Except.error e => Except.error e
             | Except.ok ns => Except.ok (n :: ns))
          have htail := validateItems_agrees p (i + 1) vs
          cases ht : allErrorsList p (i + 1) vs with
          | nil =>
              rw [ht] at htail
              have htail2 : ∃ ns, validateItems p (i + 1) vs = .ok ns := htail
              obtain ⟨ns, hns⟩ := htail2
              rw [hns]
              exact ⟨n :: ns, rfl⟩
          | cons e es =>
              rw [ht] at htail
              have htail3 : validateItems p (i + 1) vs = .error e := htail
              rw [htail3]
              exact rfl
      | cons e es =>
          rw [hn] at hnode
          have hnode3 : validateNode (p ++ [i]) v = .error e := hnode
          rw [hnode3]
          exact rfl

end

/-! ## Claim theorems -/

/-- Claim C1: for every input tree containing at least one structural
defect, validate returns exactly the first such error in depth-first,
left-to-right traversal order: `allErrorsList` enumerates the structural
defects of the tree in traversal order, and whenever that enumeration is
nonempty validate returns precisely its head, the first defect; in
particular, for two structural errors at paths root[0] and
root[1].items[0], the error at root[0] is returned. -/
theorem validate_fail_fast_first :
    (∀ (elems : List Raw) (e : ValidationError) (rest : List ValidationError),
        allErrorsList [] 0 elems = e :: rest →
        validate (.arr elems) = .err [e]) ∧
    validate (.arr [.num 5, cat "Guides" [.str ""]]) =
      .err [.MalformedNode [0] "node is neither a string nor a category mapping"] := by
  refine ⟨?_, rfl⟩
  intro elems e rest herr
  have hagree := validateItems_agrees [] 0 elems
  rw [herr] at hagree
  have h2 : validateItems [] 0 elems = .error e := hagree
  rw [validate, h2]

/-- Witness for C1 at a concrete input whose first defect follows a valid
sibling and is itself followed by a further defect: the error at root[1]
is returned, not the one at root[2]. -/
theorem validate_fail_fast_first_witness :
    validate (.arr [.str "ok", .num 5, .num 6]) =
      .err [.MalformedNode [1] "node is neither a string nor a category mapping"] :=
  validate_fail_fast_first.1 [.str "ok", .num 5, .num 6]
    (.MalformedNode [1] "node is neither a string nor a category mapping")
    [.MalformedNode [2] "node is neither a string nor a category mapping"] rfl

/-- Claim C2: for a structurally valid tree in which some documentId value
occurs at two or more paths, validate reports the duplicates, with exactly
one DuplicateDocumentId error per repeated value listing every path where
the value occurs; concretely, documentId "x" at three distinct paths
produces one error listing all three paths. -/
theorem validate_duplicates_exhaustive :
    (∀ (elems : List Raw) (tree : List NavigationNode) (d : String),
        validateItems [] 0 elems = .ok tree →
        2 ≤ ((collectIds [] 0 tree).map Prod.fst).count d →
        validate (.arr elems) = .err (dupErrors (collectIds [] 0 tree)) ∧
        (dupErrors (collectIds [] 0 tree)).filter (isDupErrorFor d) =
          [.DuplicateDocumentId d (pathsOf d (collectIds [] 0 tree))]) ∧
    validate (.arr [.str "x", .str "x", cat "C" [.str "x"]]) =
      .err [.DuplicateDocumentId "x" [[0], [1], [2, 0]]] := by
  refine ⟨?_, rfl⟩
  intro elems tree d h hd
  refine ⟨?_, dupErrors_filter_eq hd⟩
  have hv : validate (.arr elems) =
      match dupErrors (collectIds [] 0 tree) with
      | [] => VResult.ok tree
      | e :: es => VResult.err (e :: es) := by rw [validate, h]
  obtain ⟨e, es, hc⟩ := List.exists_cons_of_ne_nil (dupErrors_ne_nil hd)
  rw [hv, hc]

/-- Witness for C2 at a concrete input: the tree with "x" at paths [0], [1]
and [2, 0]. -/
theorem validate_duplicates_exhaustive_witness :
    validate (.arr [.str "x", .str "x", cat "C" [.str "x"]]) =
      .err (dupErrors (collectIds [] 0
        [.Leaf "x", .Leaf "x", .Category "C" [.Leaf "x"]])) ∧
    (dupErrors (collectIds [] 0
        [.Leaf "x", .Leaf "x", .Category "C" [.Leaf "x"]])).filter
        (isDupErrorFor "x") =
      [.DuplicateDocumentId "x" (pathsOf "x" (collectIds [] 0
        [.Leaf "x", .Leaf "x", .Category "C" [.Leaf "x"]]))] :=
  validate_duplicates_exhaustive.1
    [.str "x", .str "x", cat "C" [.str "x"]]
    [.Leaf "x", .Leaf "x", .Category "C" [.Leaf "x"]] "x" rfl (by decide)

/-- Claim C3: whenever validate succeeds, the returned tree exactly mirrors
the input: the root was a sequence, each plain string became a Leaf with
that documentId, each category mapping became a Category with the same
label and its items in the same order (and the result is a structural copy
living in the validated type, sharing nothing with the raw input). -/
theorem validate_ok_mirrors : ∀ (raw : Raw) (t : List NavigationNode),
    validate raw = .ok t →
    ∃ elems, raw = .arr elems ∧ ListMirrors elems t := by
  intro raw t h
  cases raw with
  | arr elems =>
      refine ⟨elems, rfl, ?_⟩
      cases hs : validateItems [] 0 elems with
      | error e =>
          exfalso
          have hv2 : validate (.arr elems) = .err [e] := by rw [validate, hs]
          rw [hv2] at h
          exact VResult.noConfusion h
      | ok tree =>
          have hv : validate (.arr elems) =
              match dupErrors (collectIds [] 0 tree) with
              | [] => VResult.ok tree
              | e :: es => VResult.err (e :: es) := by rw [validate, hs]
          rw [hv] at h
          cases hd : dupErrors (collectIds [] 0 tree) with
          | nil =>
              rw [hd] at h
              have h3 : VResult.ok tree = VResult.ok t := h
              cases h3
              exact validateItems_mirrors [] 0 elems t hs
          | cons e es =>
              rw [hd] at h
              exact VResult.noConfusion h
  | str s => exact VResult.noConfusion h
  | boolVal b => exact VResult.noConfusion h
  | num m => exact VResult.noConfusion h
  | null => exact VResult.noConfusion h
  | obj fields => exact VResult.noConfusion h

/-- Witness for C3 at the end-to-end scenario A input. -/
theorem validate_ok_mirrors_witness :
    ∃ elems,
      Raw.arr [Raw.str "index", cat "Guides" [Raw.str "setup", Raw.str "usage"]] =
        .arr elems ∧
      ListMirrors elems
        [NavigationNode.Leaf "index",
         .Category "Guides" [.Leaf "setup", .Leaf "usage"]] :=
  validate_ok_mirrors
    (Raw.arr [Raw.str "index", cat "Guides" [Raw.str "setup", Raw.str "usage"]])
    [NavigationNode.Leaf "index",
     .Category "Guides" [.Leaf "setup", .Leaf "usage"]] rfl

/-- Claim C4: for every valid tree T, decoding the encoding of T yields T
back, and validate applied to the encoding succeeds with exactly T. -/
theorem decode_encode_roundtrip : ∀ t : List NavigationNode, TreeValid t →
    decode (encode t) = some t ∧ validate (encode t) = .ok t := by
  intro t ht
  have hs := validateItems_encodeList [] 0 t ht.1
  constructor
  · show decode (.arr (encodeList t)) = some t
    rw [decode, hs]
  · show validate (.arr (encodeList t)) = .ok t
    have hv : validate (.arr (encodeList t)) =
        match dupErrors (collectIds [] 0 t) with
        | [] => VResult.ok t
        | e :: es => VResult.err (e :: es) := by rw [validate, hs]
    rw [hv, dupErrors_eq_nil_of_nodup ht.2]

/-- Witness for C4 at the scenario A tree. -/
theorem decode_encode_roundtrip_witness :
    decode (encode [NavigationNode.Leaf "index",
        .Category "Guides" [.Leaf "setup", .Leaf "usage"]]) =
      some [NavigationNode.Leaf "index",
        .Category "Guides" [.Leaf "setup", .Leaf "usage"]] ∧
    validate (encode [NavigationNode.Leaf "index",
        .Category "Guides" [.Leaf "setup", .Leaf "usage"]]) =
      .ok [NavigationNode.Leaf "index",
        .Category "Guides" [.Leaf "setup", .Leaf "usage"]] :=
  decode_encode_roundtrip
    [NavigationNode.Leaf "index",
     .Category "Guides" [.Leaf "setup", .Leaf "usage"]] ⟨rfl, by decide⟩

/-- Claim C5: a category with a nonempty label and an empty items sequence
is accepted; a length-0 items list is not a validation error. -/
theorem empty_category_validates :
    validate (.arr [cat "Empty" []]) = .ok [.Category "Empty" []] := rfl

/-- Claim C6: validate is total: on every input it returns either a
validated tree or a nonempty list of errors, and every error value is one
of exactly the five variants of the taxonomy. -/
theorem validate_total_and_errors_nonempty :
    (∀ raw : Raw, (∃ t, validate raw = .ok t) ∨
      (∃ es, validate raw = .err es ∧ es ≠ [])) ∧
    (∀ e : ValidationError,
      (∃ p r, e = .MalformedNode p r) ∨ (∃ p, e = .EmptyLabel p) ∨
      (∃ p, e = .InvalidItems p) ∨ (∃ p, e = .EmptyDocumentId p) ∨
      (∃ d ps, e = .DuplicateDocumentId d ps)) := by
  constructor
  · intro raw
    cases raw with
    | arr elems =>
        cases h : validateItems [] 0 elems with
        | error e =>
            right
            refine ⟨[e], ?_, by simp⟩
            rw [validate, h]
        | ok tree =>
            have hv : validate (.arr elems) =
                match dupErrors (collectIds [] 0 tree) with
                | [] => VResult.ok tree
                | e :: es => VResult.err (e :: es) := by rw [validate, h]
            cases hd : dupErrors (collectIds [] 0 tree) with
            | nil => exact Or.inl ⟨tree, by rw [hv, hd]⟩
            | cons e es =>
                right
                refine ⟨e :: es, ?_, by simp⟩
                rw [hv, hd]
    | str s => exact Or.inr ⟨[.MalformedNode [] "root is not a sequence"], rfl, by simp⟩
    | boolVal b => exact Or.inr ⟨[.MalformedNode [] "root is not a sequence"], rfl, by simp⟩
    | num m => exact Or.inr ⟨[.MalformedNode [] "root is not a sequence"], rfl, by simp⟩
    | null => exact Or.inr ⟨[.MalformedNode [] "root is not a sequence"], rfl, by simp⟩
    | obj fields => exact Or.inr ⟨[.MalformedNode [] "root is not a sequence"], rfl, by simp⟩
  · intro e
    cases e with
    | MalformedNode p r => exact Or.inl ⟨p, r, rfl⟩
    | EmptyLabel p => exact Or.inr (Or.inl ⟨p, rfl⟩)
    | InvalidItems p => exact Or.inr (Or.inr (Or.inl ⟨p, rfl⟩))
    | EmptyDocumentId p => exact Or.inr (Or.inr (Or.inr (Or.inl ⟨p, rfl⟩)))
    | DuplicateDocumentId d ps =>
        exact Or.inr (Or.inr (Or.inr (Or.inr ⟨d, ps, rfl⟩)))

/-- Claim C7: validate is deterministic: two runs on equal inputs return
equal results (purity is inherent to the embedding: the function reads
nothing but its argument). -/
theorem validate_deterministic (r₁ r₂ : Raw) (h : r₁ = r₂) :
    validate r₁ = validate r₂ := by rw [h]

/-- Witness for C7 at a concrete input. -/
theorem validate_deterministic_witness :
    validate Raw.null = validate Raw.null :=
  validate_deterministic Raw.null Raw.null rfl

/-- Claim C8: every node of the someSidebar tree is either a nonempty plain
string or a mapping carrying type "category", a nonempty label and a
sequence-valued items field; consequently the structural walk raises no
MalformedNode, EmptyLabel, InvalidItems or EmptyDocumentId error. -/
theorem someSidebar_well_shaped :
    wellShapedList someSidebar = true ∧
    validateItems [] 0 someSidebar = .ok someSidebarTree := ⟨rfl, rfl⟩

/-- Counterexample to C9 as stated: the someSidebar tree has 68 leaf
document identifiers, not 66. -/
theorem someSidebar_leaf_count_ne_66 :
    (collectIds [] 0 someSidebarTree).length = 68 ∧
    ¬ (collectIds [] 0 someSidebarTree).length = 66 := ⟨rfl, by decide⟩

/-- Claim C9 (amended): the 68 leaf documentId values of someSidebar are
pairwise distinct, so the whole-tree duplicate check produces no
DuplicateDocumentId error and validate succeeds on the configuration. -/
theorem someSidebar_ids_unique :
    ((collectIds [] 0 someSidebarTree).map Prod.fst).Nodup ∧
    (collectIds [] 0 someSidebarTree).length = 68 ∧
    validate (.arr someSidebar) = .ok someSidebarTree := ⟨by decide, rfl, rfl⟩

/-- Claim C10: every category of someSidebar has a nonempty items list, the
category nesting depth is at most two, and every leaf sits at depth at most
three below the root sequence. -/
theorem someSidebar_depth_bounded :
    validate (.arr someSidebar) = .ok someSidebarTree ∧
    noEmptyCategoryList someSidebarTree = true ∧
    categoryDepthList someSidebarTree ≤ 2 ∧
    (collectIds [] 0 someSidebarTree).all
      (fun q => decide (q.2.length ≤ 3)) = true :=
  ⟨rfl, rfl, by decide, rfl⟩
